import Mathlib

/-!
Verification of the token-routing and destination-resolution subsystem of the
slack-bot repository, as a shallow embedding in Lean 4.

JavaScript objects used as dictionaries are modelled as insertion-ordered
association lists with string keys (`StrMap`).  JavaScript truthiness on
string-valued fields is modelled explicitly (`truthy`): the empty string and
an absent value are falsy, every other string is truthy.  Property access on
a possibly-absent field is modelled with `Option`.

Sources embedded here:
  - the storage service: validateStorage, updateStoreWithChangeDetection;
  - utils/helpers.js: getUserToken, isTokenExpired, getValidToken,
    cleanupExpiredInstallation, createTokenExpiredResponse;
  - handlers/webhooks.js: the POST /webhook/:token handler, with
    the Slack platform calls abstracted as an oracle environment (`Env`);
  - app.js: the periodic auto-save interval task.
-/

namespace SlackBot

/-! ## JavaScript object primitives -/

/-- A JavaScript object used as a dictionary: insertion-ordered
association list with string keys. -/
abbrev StrMap (α : Type) := List (String × α)

/-- Property read, `m[k]`: first entry with the given key (JS objects have
unique keys, so first-match agrees with JS semantics). -/
def jsGet {α : Type} : StrMap α → String → Option α
  | [], _ => none
  | (k, v) :: rest, key => if k = key then some v else jsGet rest key

/-- JavaScript truthiness of a possibly-absent string value: absent and
the empty string are falsy. -/
def truthy : Option String → Option String
  | none => none
  | some s => if s = "" then none else some s

/-- Truthy property read: the value of `m[k]` when it is a truthy string. -/
def jsGetT (m : StrMap String) (k : String) : Option String :=
  truthy (jsGet m k)

/-- JavaScript `a || b || null` on two possibly-absent strings. -/
def jsOr (a b : Option String) : Option String :=
  match truthy a with
  | some x => some x
  | none => truthy b

/-- Property write, `m[k] = v`: replaces the value in place if the key
exists (keeping insertion order), otherwise appends. -/
def jsSet {α : Type} (m : StrMap α) (k : String) (v : α) : StrMap α :=
  if (jsGet m k).isSome then
    m.map (fun p => if p.1 = k then (k, v) else p)
  else
    m ++ [(k, v)]

/-- Property delete, `delete m[k]`. -/
def jsDel {α : Type} (m : StrMap α) (k : String) : StrMap α :=
  m.filter (fun p => p.1 ≠ k)

theorem jsGet_map_replace {α : Type} (m : StrMap α) (k : String) (v : α) :
    jsGet (m.map (fun p => if p.1 = k then (k, v) else p)) k =
      (jsGet m k).map (fun _ => v) := by
  induction m with
  | nil => simp [jsGet]
  | cons p rest ih =>
    simp only [List.map_cons]
    by_cases hk : p.1 = k
    · rw [if_pos hk]
      simp [jsGet, hk]
    · rw [if_neg hk]
      simp [jsGet, hk, ih]

theorem jsGet_append_single {α : Type} (m : StrMap α) (k : String) (v : α)
    (h : jsGet m k = none) : jsGet (m ++ [(k, v)]) k = some v := by
  induction m with
  | nil => simp [jsGet]
  | cons p rest ih =>
    by_cases hk : p.1 = k
    · simp [jsGet, hk] at h
    · simp only [jsGet, List.cons_append] at h ⊢
      rw [if_neg hk] at h ⊢
      exact ih h

theorem jsGet_jsSet_self {α : Type} (m : StrMap α) (k : String) (v : α) :
    jsGet (jsSet m k v) k = some v := by
  unfold jsSet
  split
  · rename_i h
    rw [jsGet_map_replace]
    cases hm : jsGet m k with
    | none => rw [hm] at h; simp at h
    | some w => simp
  · rename_i h
    refine jsGet_append_single m k v ?_
    cases hm : jsGet m k with
    | none => rfl
    | some w => rw [hm] at h; simp at h

theorem jsGet_jsDel_self {α : Type} (m : StrMap α) (k : String) :
    jsGet (jsDel m k) k = none := by
  induction m with
  | nil => simp [jsDel, jsGet]
  | cons p rest ih =>
    by_cases hk : p.1 = k
    · simpa [jsDel, hk] using ih
    · simpa [jsDel, jsGet, hk] using ih

/-! ## Data model

The persisted document (`Store`): four top-level maps.  `Dest` is a stored
destination; `Installation` a per-workspace OAuth record, with the fields the
embedded code reads: `bot.token`, its refresh data, a legacy top-level
`token`, `refreshToken`, `expiresAt` (a millisecond timestamp; absent means
never expires) and `team.id` (modelled as `teamId`). -/

structure Bot where
  token : Option String := none
  refreshToken : Option String := none
  expiresAt : Option Nat := none
  deriving Repr, DecidableEq

structure Installation where
  bot : Option Bot := none
  token : Option String := none
  refreshToken : Option String := none
  expiresAt : Option Nat := none
  teamId : Option String := none
  deriving Repr, DecidableEq

structure Dest where
  channel : Option String := none
  workspaceId : Option String := none
  team_id : Option String := none
  deriving Repr, DecidableEq

structure Store where
  destinations : StrMap Dest
  userTokens : StrMap String
  tokenToUser : StrMap String
  installations : StrMap Installation
  deriving Repr, DecidableEq

/-- A loaded document before validation: each top-level field may be missing
or not an object (modelled as `none`). -/
structure RawStore where
  destinations : Option (StrMap Dest) := none
  userTokens : Option (StrMap String) := none
  tokenToUser : Option (StrMap String) := none
  installations : Option (StrMap Installation) := none
  deriving Repr, DecidableEq

/-! ## Consistency validator (validateStorage) -/

/-- First sweep keep-condition for a tokenToUser entry (token, userId):
the entry is kept unless `!store.userTokens[userId] ||
store.userTokens[userId] !== token`. -/
def keepTokenEntry (userTokens : StrMap String) (p : String × String) : Bool :=
  jsGetT userTokens p.2 == some p.1

/-- Second sweep keep-condition for a userTokens entry (userId, token),
checked against the already-swept tokenToUser map. -/
def keepUserEntry (tokenToUser : StrMap String) (p : String × String) : Bool :=
  jsGetT tokenToUser p.2 == some p.1

/-- validateStorage: ensure the four maps exist, then delete orphaned
tokenToUser entries (those failing the check against userTokens), then
delete orphaned userTokens entries (those failing the check against the
already-cleaned tokenToUser).  Returns the repaired store and whether any
repair occurred (`needsRepair`). -/
def validateStorage (raw : RawStore) : Store × Bool :=
  let d := raw.destinations.getD []
  let ut := raw.userTokens.getD []
  let t2u := raw.tokenToUser.getD []
  let inst := raw.installations.getD []
  let fieldRepair :=
    raw.destinations.isNone || raw.userTokens.isNone ||
    raw.tokenToUser.isNone || raw.installations.isNone
  let t2u2 := t2u.filter (keepTokenEntry ut)
  let ut2 := ut.filter (keepUserEntry t2u2)
  let sweepRepair := t2u2.length ≠ t2u.length || ut2.length ≠ ut.length
  (⟨d, ut2, t2u2, inst⟩, fieldRepair || sweepRepair)

/-- Bool-valued mutual-inverse check of the two token maps, entry by entry. -/
def tokenMapsInverse (userTokens tokenToUser : StrMap String) : Bool :=
  tokenToUser.all (fun p => jsGet userTokens p.2 == some p.1) &&
  userTokens.all (fun p => jsGet tokenToUser p.2 == some p.1)

theorem truthy_eq_some {o : Option String} {x : String} (h : truthy o = some x) :
    o = some x ∧ x ≠ "" := by
  cases o with
  | none => simp [truthy] at h
  | some s =>
    by_cases hs : s = ""
    · simp [truthy, hs] at h
    · simp only [truthy, if_neg hs, Option.some.injEq] at h
      subst h
      exact ⟨rfl, hs⟩

theorem truthy_of_some {o : Option String} {x : String} (h : o = some x)
    (hx : x ≠ "") : truthy o = some x := by
  subst h
  simp [truthy, hx]

theorem mem_of_jsGet {α : Type} {l : StrMap α} {k : String} {v : α}
    (h : jsGet l k = some v) : (k, v) ∈ l := by
  induction l with
  | nil => simp [jsGet] at h
  | cons q rest ih =>
    by_cases hk : q.1 = k
    · simp only [jsGet, if_pos hk, Option.some.injEq] at h
      have hq : q = (k, v) := by
        calc q = (q.1, q.2) := rfl
          _ = (k, v) := by rw [hk, h]
      rw [hq]
      exact List.mem_cons_self _ _
    · simp only [jsGet, if_neg hk] at h
      exact List.mem_cons_of_mem _ (ih h)

theorem jsGet_filter_of_keep {α : Type} {l : StrMap α} {pr : String × α → Bool}
    {k : String} {v : α} (h : jsGet l k = some v) (hp : pr (k, v) = true) :
    jsGet (l.filter pr) k = some v := by
  induction l with
  | nil => simp [jsGet] at h
  | cons q rest ih =>
    by_cases hk : q.1 = k
    · simp only [jsGet, if_pos hk, Option.some.injEq] at h
      have hq : q = (k, v) := by
        calc q = (q.1, q.2) := rfl
          _ = (k, v) := by rw [hk, h]
      subst hq
      simp [List.filter, hp, jsGet]
    · simp only [jsGet, if_neg hk] at h
      cases hpr : pr q with
      | true => simpa [List.filter, hpr, jsGet, hk] using ih h
      | false => simpa [List.filter, hpr] using ih h

/-- C1 counterexample input: a document mapping the empty-string user id to
token t1 and token t1 back to the empty-string user id.  The first sweep
keeps the tokenToUser entry (its userTokens counterpart matches), but the
second sweep deletes the userTokens entry because the reverse value is the
falsy empty string. -/
def rawEmptyUserDoc : RawStore :=
  { destinations := some [], userTokens := some [("", "t1")],
    tokenToUser := some [("t1", "")], installations := some [] }

/-- C1, counterexample: after validateStorage the two token maps need not be
mutual inverses; on `rawEmptyUserDoc` the repaired store still contains the
tokenToUser entry (t1, "") whereas userTokens is empty, so the entry-wise
inverse check fails. -/
theorem validateStorage_not_inverse_on_empty_user :
    tokenMapsInverse (validateStorage rawEmptyUserDoc).1.userTokens
      (validateStorage rawEmptyUserDoc).1.tokenToUser = false := by
  decide

/-- C1 (amended): after validateStorage all four maps exist (by construction
of the result type), and the two one-directional deletion sweeps establish
mutual inversion with one proviso forced by the code's JS falsiness guards:
the direction from userTokens to tokenToUser holds for every input document,
and the direction from tokenToUser to userTokens holds whenever no
tokenToUser entry maps a token to the empty-string user id (as in every
document produced by normal operation, where user ids are non-empty). -/
theorem validateStorage_tokenMaps_mutual_inverse (raw : RawStore)
    (hne : ∀ p ∈ raw.tokenToUser.getD [], p.2 ≠ "") :
    (∀ u t, jsGet (validateStorage raw).1.userTokens u = some t →
        jsGet (validateStorage raw).1.tokenToUser t = some u) ∧
    (∀ t u, jsGet (validateStorage raw).1.tokenToUser t = some u →
        jsGet (validateStorage raw).1.userTokens u = some t) := by
  constructor
  · intro u t h
    have hmem : (u, t) ∈ (raw.userTokens.getD []).filter
        (keepUserEntry ((raw.tokenToUser.getD []).filter
          (keepTokenEntry (raw.userTokens.getD [])))) := mem_of_jsGet h
    have hkeep := (List.mem_filter.mp hmem).2
    simp only [keepUserEntry, beq_iff_eq] at hkeep
    exact (truthy_eq_some hkeep).1
  · intro t u h
    have hmem : (t, u) ∈ (raw.tokenToUser.getD []).filter
        (keepTokenEntry (raw.userTokens.getD [])) := mem_of_jsGet h
    have hin := (List.mem_filter.mp hmem).1
    have hkeep := (List.mem_filter.mp hmem).2
    simp only [keepTokenEntry, beq_iff_eq] at hkeep
    have hut : jsGet (raw.userTokens.getD []) u = some t ∧ t ≠ "" :=
      truthy_eq_some hkeep
    have hu : u ≠ "" := hne (t, u) hin
    refine jsGet_filter_of_keep hut.1 ?_
    simp only [keepUserEntry, beq_iff_eq]
    exact truthy_of_some h hu

/-- Example document used to witness the amended C1 theorem at a concrete
input. -/
def rawConsistentDoc : RawStore :=
  { destinations := some [], userTokens := some [("u1", "t1")],
    tokenToUser := some [("t1", "u1")], installations := some [] }

/-- Witness for the amended C1 theorem at `rawConsistentDoc`. -/
theorem validateStorage_tokenMaps_mutual_inverse_witness :
    jsGet (validateStorage rawConsistentDoc).1.tokenToUser "t1" = some "u1" :=
  (validateStorage_tokenMaps_mutual_inverse rawConsistentDoc (by decide)).1
    "u1" "t1" (by decide)

/-! ## Serialization (JSON.stringify on the document)

A concrete serializer mirroring JSON.stringify on the store shape: object
keys in insertion order, absent (undefined) fields omitted.  Exact
whitespace and escaping are irrelevant to the change-detection comparison
and are not modelled. -/

def jsonQuote (s : String) : String := "\"" ++ s ++ "\""

def jsonField (k v : String) : String := jsonQuote k ++ ":" ++ v

def jsonObjOf (fields : List String) : String :=
  "\x7b" ++ String.intercalate "," fields ++ "\x7d"

def serializeBot (b : Bot) : String :=
  jsonObjOf ((b.token.map (fun t => jsonField "token" (jsonQuote t))).toList ++
    (b.refreshToken.map (fun r => jsonField "refreshToken" (jsonQuote r))).toList ++
    (b.expiresAt.map (fun e => jsonField "expiresAt" (toString e))).toList)

def serializeInstallation (i : Installation) : String :=
  jsonObjOf ((i.bot.map (fun b => jsonField "bot" (serializeBot b))).toList ++
    (i.token.map (fun t => jsonField "token" (jsonQuote t))).toList ++
    (i.refreshToken.map (fun r => jsonField "refreshToken" (jsonQuote r))).toList ++
    (i.expiresAt.map (fun e => jsonField "expiresAt" (toString e))).toList ++
    (i.teamId.map (fun tid =>
      jsonField "team" (jsonObjOf [jsonField "id" (jsonQuote tid)]))).toList)

def serializeDest (d : Dest) : String :=
  jsonObjOf ((d.channel.map (fun c => jsonField "channel" (jsonQuote c))).toList ++
    (d.workspaceId.map (fun w => jsonField "workspaceId" (jsonQuote w))).toList ++
    (d.team_id.map (fun w => jsonField "team_id" (jsonQuote w))).toList)

def serializeMap {α : Type} (ser : α → String) (m : StrMap α) : String :=
  jsonObjOf (m.map (fun p => jsonField p.1 (ser p.2)))

def serializeStore (s : Store) : String :=
  jsonObjOf [jsonField "destinations" (serializeMap serializeDest s.destinations),
    jsonField "userTokens" (serializeMap jsonQuote s.userTokens),
    jsonField "tokenToUser" (serializeMap jsonQuote s.tokenToUser),
    jsonField "installations" (serializeMap serializeInstallation s.installations)]

/-! ## Change-aware mutator (updateStoreWithChangeDetection) -/

structure UpdateResult where
  store : Store
  saved : Bool
  deriving Repr, DecidableEq

/-- updateStoreWithChangeDetection: serialize the document, apply the
mutation, serialize again, and call saveStore only when the two
serializations differ.  `saved` records whether saveStore was invoked. -/
def updateStoreWithChangeDetection (store : Store) (updateFn : Store → Store) :
    UpdateResult :=
  let beforeUpdate := serializeStore store
  let store2 := updateFn store
  let afterUpdate := serializeStore store2
  if beforeUpdate ≠ afterUpdate then ⟨store2, true⟩ else ⟨store2, false⟩

/-- C5: for every store state and mutation function, the change-aware
mutator invokes the underlying save exactly when the serialization of the
document before the mutation differs from the serialization after it; a
mutation with byte-identical serialized output causes no save call. -/
theorem updateStore_saves_iff_serialization_differs (store : Store)
    (updateFn : Store → Store) :
    (updateStoreWithChangeDetection store updateFn).saved
        = !(serializeStore store == serializeStore (updateFn store)) ∧
    (updateStoreWithChangeDetection store updateFn).store = updateFn store := by
  unfold updateStoreWithChangeDetection
  by_cases h : serializeStore store = serializeStore (updateFn store)
  · simp [h]
  · simp [h]

/-! ## Token identity manager (getUserToken) -/

/-- getUserToken from utils/helpers.js: return the user's existing (truthy)
token if present; otherwise store `freshToken` (modelling the randomUUID()
call) in both maps and return it.  The backward-compatibility guards that
create missing maps are identities here because `Store` always carries both
maps. -/
def getUserToken (userId freshToken : String) (store : Store) :
    String × Store :=
  match jsGetT store.userTokens userId with
  | some t => (t, store)
  | none =>
    (freshToken,
      { store with
        userTokens := jsSet store.userTokens userId freshToken,
        tokenToUser := jsSet store.tokenToUser freshToken userId })

/-- C6: for a user with no existing token, two successive getUserToken calls
return the same freshly generated token, the second call changes nothing,
and the reverse map sends that token back to the user (so resolving the
token yields the user); for a user who already has a (truthy) token,
getUserToken returns it and leaves the store unchanged. -/
theorem getUserToken_roundtrip_and_stable (store : Store)
    (u fresh fresh2 : String) (hfresh : fresh ≠ "") :
    (jsGetT store.userTokens u = none →
      (getUserToken u fresh store).1 = fresh ∧
      getUserToken u fresh2 (getUserToken u fresh store).2 =
        (fresh, (getUserToken u fresh store).2) ∧
      jsGet (getUserToken u fresh store).2.tokenToUser fresh = some u) ∧
    (∀ t, jsGetT store.userTokens u = some t →
      getUserToken u fresh store = (t, store)) := by
  constructor
  · intro h
    have h1 : getUserToken u fresh store =
        (fresh,
          { store with
            userTokens := jsSet store.userTokens u fresh,
            tokenToUser := jsSet store.tokenToUser fresh u }) := by
      unfold getUserToken
      rw [h]
    refine ⟨by rw [h1], ?_, ?_⟩
    · rw [h1]
      unfold getUserToken
      have hget : jsGetT (jsSet store.userTokens u fresh) u = some fresh := by
        unfold jsGetT
        rw [jsGet_jsSet_self]
        exact truthy_of_some rfl hfresh
      simp only [hget]
    · rw [h1]
      exact jsGet_jsSet_self _ _ _
  · intro t ht
    unfold getUserToken
    rw [ht]

/-- Witness for C6: a never-before-seen user gets the freshly generated
token, and the reverse map resolves it back to the user. -/
theorem getUserToken_roundtrip_and_stable_witness :
    (getUserToken "U9" "fresh-token" (⟨[], [], [], []⟩ : Store)).1 = "fresh-token" ∧
    jsGet (getUserToken "U9" "fresh-token" (⟨[], [], [], []⟩ : Store)).2.tokenToUser
        "fresh-token" = some "U9" := by
  have h := (getUserToken_roundtrip_and_stable (⟨[], [], [], []⟩ : Store) "U9"
    "fresh-token" "other" (by decide)).1 (by decide)
  exact ⟨h.1, h.2.2⟩

/-! ## Periodic auto-save task (app.js) -/

/-- State of the periodic auto-save task: time of the last save in ms. -/
structure AutoSaveState where
  lastSaveTime : Nat
  deriving Repr, DecidableEq

def AUTO_SAVE_INTERVAL : Nat := 30000

/-- One invocation of the setInterval auto-save callback in app.js: when at
least AUTO_SAVE_INTERVAL ms have elapsed since the last save it calls
saveStore on the current document unconditionally — the document is never
examined and no change detection is performed — and records the save time.
The returned Bool is whether a store write happened. -/
def autoSaveTick (st : AutoSaveState) (doc : Store) (now : Nat) :
    AutoSaveState × Bool :=
  if AUTO_SAVE_INTERVAL ≤ now - st.lastSaveTime then (⟨now⟩, true)
  else (st, false)

/-- The empty document. -/
def emptyStore : Store := ⟨[], [], [], []⟩

/-- C10, counterexample: two back-to-back invocations of the periodic
auto-save task, 30 s apart, with the identical unchanged document, both
perform an actual store write — the periodic task has no change detection,
so the claimed "at most one actual write" fails. -/
theorem autoSave_two_writes_on_unchanged_doc :
    (autoSaveTick ⟨0⟩ emptyStore 30000).2 = true ∧
    (autoSaveTick (autoSaveTick ⟨0⟩ emptyStore 30000).1 emptyStore 60000).2
      = true := by
  decide

/-- C10 (amended): the periodic auto-save writes unconditionally (saveStore,
no change detection), so the only case in which the second of two
invocations skips the write is when it runs less than AUTO_SAVE_INTERVAL
(30 s) after a tick that wrote, regardless of whether the document changed. -/
theorem autoSave_second_tick_within_interval_skipped (st : AutoSaveState)
    (doc doc2 : Store) (n1 n2 : Nat)
    (hwrote : (autoSaveTick st doc n1).2 = true)
    (hlt : n2 - n1 < AUTO_SAVE_INTERVAL) :
    (autoSaveTick (autoSaveTick st doc n1).1 doc2 n2).2 = false := by
  unfold autoSaveTick at hwrote ⊢
  by_cases h1 : AUTO_SAVE_INTERVAL ≤ n1 - st.lastSaveTime
  · simp only [if_pos h1]
    have : ¬ AUTO_SAVE_INTERVAL ≤ n2 - n1 := Nat.not_le.mpr hlt
    simp [this]
  · simp [h1] at hwrote

/-- Witness for the amended C10 theorem: a write at t=30000 followed by a
tick at t=40000 performs no second write. -/
theorem autoSave_second_tick_skipped_witness :
    (autoSaveTick (autoSaveTick ⟨0⟩ emptyStore 30000).1 emptyStore 40000).2
      = false :=
  autoSave_second_tick_within_interval_skipped ⟨0⟩ emptyStore emptyStore
    30000 40000 (by decide) (by decide)

/-! ## Slack platform oracle

The Slack SDK calls made by the webhook handler are abstracted as a
deterministic oracle `Env`.  A client is either the app-wide default client
(`Client.app`, built from the process-wide bot token) or a WebClient built
from a specific token.  Errors carry the Slack error code string; the code
classifies an error as expiry exactly when that code is "token_expired". -/

inductive Client where
  | app
  | web (token : String)
  deriving Repr, DecidableEq

structure ChannelInfo where
  is_private : Bool
  deriving Repr, DecidableEq

structure AuthInfo where
  team_id : String
  user_id : String := ""
  deriving Repr, DecidableEq

structure PostOk where
  channel : String
  ts : String
  deriving Repr, DecidableEq

/-- Result of a successful oauth.v2.access refresh-token exchange. -/
structure RefreshOk where
  accessToken : String
  refreshToken : Option String := none
  expiresAt : Option Nat := none
  deriving Repr, DecidableEq

structure Env where
  /-- Date.now() in ms. -/
  now : Nat
  /-- Outcome of refreshSlackToken per refresh token; none is a failure. -/
  refreshOutcome : String → Option RefreshOk
  /-- The Bolt installation store when one is wired in
  (CustomInstallationStore never throws; it returns null when absent). -/
  fetchInstallation : Option (String → Option Installation)
  /-- conversations.info: ok with channel metadata, or a Slack error code. -/
  convInfo : Client → String → Except String ChannelInfo
  /-- auth.test. -/
  authTest : Client → Except String AuthInfo
  /-- chat.postMessage, first attempt. -/
  postFirst : Client → String → Except String PostOk
  /-- conversations.join. -/
  joinChannel : Client → String → Except String Unit
  /-- chat.postMessage, retry after a successful join. -/
  postRetry : Client → String → Except String PostOk

/-! ## Credential expiry and refresh (helpers.js) -/

/-- isTokenExpired with the default 5-minute buffer: an absent (or falsy)
expiry never expires; otherwise expired when the recorded expiry is at or
before now plus the buffer. -/
def isTokenExpired (expiresAt : Option Nat) (now : Nat) : Bool :=
  match expiresAt with
  | none => false
  | some e => e ≤ now + 5 * 60 * 1000

structure TokenResult where
  /-- ok: the value getValidToken returns (the raw bot token may be absent);
  error: the message of the thrown Error. -/
  result : Except String (Option String)
  store : Store
  /-- Whether the expired-or-expiring branch (the refresh path) was taken. -/
  refreshAttempted : Bool
  deriving Repr

/-- getValidToken from utils/helpers.js.  When the installation's recorded
expiry is within the 5-minute buffer it enters the refresh path: with a
(truthy) refresh token and a successful exchange it writes the rotated
installation back under team.id (when the store still has that key) and
returns the new access token; a failed exchange or a missing refresh token
throws.  (When team.id is absent the code also throws, from the template
string that dereferences installation.team.id.)  Otherwise the stored
bot.token is returned unchanged with no refresh. -/
def getValidToken (env : Env) (inst : Installation) (store : Store) :
    TokenResult :=
  if isTokenExpired inst.expiresAt env.now then
    match truthy inst.refreshToken with
    | some rt =>
      match env.refreshOutcome rt with
      | some r =>
        match inst.teamId with
        | some tid =>
          let updated : Installation :=
            { inst with
              bot := some { token := some r.accessToken,
                            refreshToken := r.refreshToken,
                            expiresAt := r.expiresAt },
              refreshToken := r.refreshToken,
              expiresAt := r.expiresAt }
          let store2 :=
            if (jsGet store.installations tid).isSome then
              { store with installations := jsSet store.installations tid updated }
            else store
          ⟨.ok (some r.accessToken), store2, true⟩
        | none => ⟨.error "team_undefined", store, true⟩
      | none => ⟨.error "refresh_failed", store, true⟩
    | none => ⟨.error "no_refresh_token", store, true⟩
  else ⟨.ok (inst.bot.bind Bot.token), store, false⟩

/-- C9: getValidToken takes the proactive-refresh path exactly when the
installation's recorded expiresAt is present and at or before now plus the
5-minute buffer (300000 ms); in every other case — including an absent
expiresAt, which never expires — it returns the stored bot token unchanged,
with no refresh and no store mutation. -/
theorem getValidToken_refreshAttempted_eq (env : Env) (inst : Installation)
    (store : Store) :
    (getValidToken env inst store).refreshAttempted =
      isTokenExpired inst.expiresAt env.now := by
  unfold getValidToken
  by_cases hexp : isTokenExpired inst.expiresAt env.now
  · rw [if_pos hexp, hexp]
    repeat' split
    all_goals rfl
  · rw [if_neg hexp]
    simp [hexp]

theorem getValidToken_refresh_iff_expiring (env : Env) (inst : Installation)
    (store : Store) :
    ((getValidToken env inst store).refreshAttempted = true ↔
      ∃ e, inst.expiresAt = some e ∧ e ≤ env.now + 300000) ∧
    (isTokenExpired inst.expiresAt env.now = false →
      getValidToken env inst store =
        ⟨.ok (inst.bot.bind Bot.token), store, false⟩) := by
  constructor
  · rw [getValidToken_refreshAttempted_eq]
    constructor
    · intro h
      cases he : inst.expiresAt with
      | none => rw [he] at h; simp [isTokenExpired] at h
      | some e =>
        refine ⟨e, rfl, ?_⟩
        rw [he] at h
        simp only [isTokenExpired, decide_eq_true_eq] at h
        omega
    · rintro ⟨e, he, hle⟩
      simp only [isTokenExpired, he, decide_eq_true_eq]
      omega
  · intro hexp
    unfold getValidToken
    rw [hexp]
    simp

/-- Witness for C9 at a concrete installation: an absent expiresAt is
treated as never expiring, so the stored bot token comes back untouched. -/
theorem getValidToken_refresh_iff_expiring_witness :
    getValidToken
        ⟨0, fun _ => none, none, fun _ _ => .error "e", fun _ => .error "e",
          fun _ _ => .error "e", fun _ _ => .error "e", fun _ _ => .error "e"⟩
        { bot := some { token := some "xoxb-1" } } emptyStore =
      ⟨.ok (some "xoxb-1"), emptyStore, false⟩ :=
  (getValidToken_refresh_iff_expiring _ _ _).2 (by decide)

/-! ## Webhook handler (handlers/webhooks.js, POST /webhook/:token) -/

structure TokenFetch where
  token : Option String
  store : Store
  deriving Repr

/-- getValidTokenForInstallation from the webhook handler: null for a
missing installation; otherwise getValidToken, falling back on any thrown
error to the raw stored token (bot token, or the legacy top-level token). -/
def getValidTokenForInstallation (env : Env) (inst? : Option Installation)
    (store : Store) : TokenFetch :=
  match inst? with
  | none => ⟨none, store⟩
  | some i =>
    let r := getValidToken env i store
    match r.result with
    | .ok t => ⟨t, r.store⟩
    | .error _ => ⟨jsOr (i.bot.bind Bot.token) i.token, r.store⟩

/-- The token getValidTokenForInstallation yields; it does not depend on
the store argument. -/
def tokenOf (env : Env) (inst? : Option Installation) : Option String :=
  match inst? with
  | none => none
  | some i =>
    if isTokenExpired i.expiresAt env.now then
      match truthy i.refreshToken with
      | some rt =>
        match env.refreshOutcome rt with
        | some r =>
          match i.teamId with
          | some _ => some r.accessToken
          | none => jsOr (i.bot.bind Bot.token) i.token
        | none => jsOr (i.bot.bind Bot.token) i.token
      | none => jsOr (i.bot.bind Bot.token) i.token
    else i.bot.bind Bot.token

structure HandlerResult where
  status : Nat
  error : Option String := none
  reinstallUrl : Bool := false
  user : Option String := none
  channel : Option String := none
  ts : Option String := none
  store : Store
  client : Client := .app
  resolvedWorkspace : Option String := none
  resolvedByProbe : Bool := false
  probeEntered : Bool := false
  probed : List String := []
  joinAttempted : Bool := false
  deriving Repr

/-- cleanupExpiredInstallation followed by createTokenExpiredResponse:
purge the installation of the known workspace (the code skips the cleanup
when no workspace id was resolved) and answer 401 with error
"token_expired" and a reinstall_url. -/
def tokenExpiredOutcome (store : Store) (client : Client) (user : String)
    (ws : Option String) (joined : Bool) : HandlerResult :=
  let store2 :=
    match ws with
    | some w =>
      if (jsGet store.installations w).isSome then
        { store with installations := jsDel store.installations w }
      else store
    | none => store
  { status := 401, error := some "token_expired", reinstallUrl := true,
    user := some user, store := store2, client := client,
    resolvedWorkspace := ws, joinAttempted := joined }

/-- The outer catch-all: 500 internal_error, after a defensive no-op
change-detection save that leaves the document as it was. -/
def internalErrorOutcome (store : Store) (client : Client)
    (ws : Option String) (joined : Bool) : HandlerResult :=
  { status := 500, error := some "internal_error", store := store,
    client := client, resolvedWorkspace := ws, joinAttempted := joined }

/-- The 200 response after a successful post. -/
def postedOutcome (store : Store) (client : Client) (user : String)
    (ws : Option String) (p : PostOk) (joined : Bool) : HandlerResult :=
  { status := 200, user := some user, channel := some p.channel,
    ts := some p.ts, store := store, client := client,
    resolvedWorkspace := ws, joinAttempted := joined }

/-- Steps 3 onward of the webhook handler: validate the chosen client with
auth.test (an expired-classified failure purges and answers 401; any other
failure is logged and the handler proceeds optimistically), then post.  A
post failure classified as expiry purges and answers 401; channel_not_found
triggers the recovery path: fetch channel info, answer 404 private_channel
for a private channel without attempting a join, else join and retry the
post once; expiry during info, join or retry also purges and answers 401;
any other failure propagates to the outer catch (500 internal_error). -/
def sendPhase (env : Env) (store : Store) (client : Client)
    (ws : Option String) (user : String) (channel : String) : HandlerResult :=
  let validationExpired : Bool :=
    match env.authTest client with
    | .error e => e = "token_expired"
    | .ok _ => false
  if validationExpired then tokenExpiredOutcome store client user ws false
  else
    match env.postFirst client channel with
    | .ok p => postedOutcome store client user ws p false
    | .error e =>
      if e = "token_expired" then tokenExpiredOutcome store client user ws false
      else if e = "channel_not_found" then
        match env.convInfo client channel with
        | .ok info =>
          if info.is_private then
            { status := 404, error := some "private_channel",
              user := some user, store := store, client := client,
              resolvedWorkspace := ws }
          else
            match env.joinChannel client channel with
            | .ok _ =>
              match env.postRetry client channel with
              | .ok p => postedOutcome store client user ws p true
              | .error e2 =>
                if e2 = "token_expired" then
                  tokenExpiredOutcome store client user ws true
                else internalErrorOutcome store client ws true
            | .error je =>
              if je = "token_expired" then
                tokenExpiredOutcome store client user ws true
              else internalErrorOutcome store client ws true
        | .error ie =>
          if ie = "token_expired" then
            tokenExpiredOutcome store client user ws false
          else internalErrorOutcome store client ws false
      else internalErrorOutcome store client ws false

/-- The installation consulted by the direct-lookup step: through the wired
installation store when present (CustomInstallationStore reads the same
document), else directly from the document's installations map. -/
def lookupInstallation (env : Env) (store : Store) (ws : String) :
    Option Installation :=
  match env.fetchInstallation with
  | some f => f ws
  | none => jsGet store.installations ws

/-- Step 1 of credential resolution: with a workspace id on the
destination, fetch that installation and use its valid token when one is
obtained; otherwise keep the app-default client. -/
def directResolve (env : Env) (store : Store) (ws : String) :
    Client × Store :=
  let tf := getValidTokenForInstallation env (lookupInstallation env store ws)
    store
  match truthy tf.token with
  | some t => (.web t, tf.store)
  | none => (.app, tf.store)

structure ProbeState where
  client : Client
  wsId : Option String
  resolvedByProbe : Bool
  store : Store
  probed : List String
  deriving Repr

/-- Step 2: probe each known installation in stored order; entries with no
usable token are skipped; the first whose credential can see the
destination channel (conversations.info succeeds) is selected and the loop
breaks; probe errors are ignored and the loop continues. -/
def probeLoop (env : Env) (channel : String) :
    List (String × Installation) → ProbeState → ProbeState
  | [], st => st
  | (tid, inst) :: rest, st =>
    let tf := getValidTokenForInstallation env (some inst) st.store
    match truthy tf.token with
    | none => probeLoop env channel rest { st with store := tf.store }
    | some t =>
      match env.convInfo (.web t) channel with
      | .ok _ =>
        { st with
          client := .web t
          wsId := some tid
          resolvedByProbe := true
          store := tf.store
          probed := st.probed ++ [tid] }
      | .error _ =>
        probeLoop env channel rest
          { st with store := tf.store, probed := st.probed ++ [tid] }

structure Resolution where
  client : Client
  wsId : Option String
  store : Store
  probeEntered : Bool
  probed : List String
  resolvedByProbe : Bool
  deriving Repr

/-- Credential resolution: the direct step when the destination knows its
workspace, then — when the workspace is unknown or the direct step left the
app-default client — the probe loop over the installations of the current
document. -/
def resolveCredential (env : Env) (store : Store) (ws0 : Option String)
    (channel : String) : Resolution :=
  let first :=
    match ws0 with
    | some w => directResolve env store w
    | none => (Client.app, store)
  if ws0 = none ∨ first.1 = Client.app then
    let st := probeLoop env channel first.2.installations
      ⟨first.1, ws0, false, first.2, []⟩
    ⟨st.client, st.wsId, st.store, true, st.probed, st.resolvedByProbe⟩
  else
    ⟨first.1, ws0, first.2, false, [], false⟩

structure WebhookInput where
  token : String
  riskInsightPresent : Bool
  deriving Repr

/-- The POST /webhook/:token handler: resolve the path token to a user
(404 token_not_found on a miss), require a parseable riskInsight payload
(400 bad_payload), require a configured destination with a truthy channel
(404 user_not_configured), resolve a credential (direct lookup then probe
fallback), and run the validate-and-send phase, whose outcome is the
response. -/
def handleWebhook (env : Env) (store : Store) (input : WebhookInput) :
    HandlerResult :=
  match jsGetT store.tokenToUser input.token with
  | none => { status := 404, error := some "token_not_found", store := store }
  | some user =>
    if !input.riskInsightPresent then
      { status := 400, error := some "bad_payload", store := store }
    else
      match jsGet store.destinations user with
      | none =>
        { status := 404, error := some "user_not_configured", store := store }
      | some dest =>
        match truthy dest.channel with
        | none =>
          { status := 404, error := some "user_not_configured", store := store }
        | some channel =>
          let r := resolveCredential env store
            (jsOr dest.workspaceId dest.team_id) channel
          let out := sendPhase env r.store r.client r.wsId user channel
          { out with
            probeEntered := r.probeEntered
            probed := r.probed
            resolvedByProbe := r.resolvedByProbe }

/-! ## Infrastructure lemmas about the handler pieces -/

theorem getValidTokenForInstallation_token (env : Env)
    (inst? : Option Installation) (store : Store) :
    (getValidTokenForInstallation env inst? store).token = tokenOf env inst? := by
  cases inst? with
  | none => rfl
  | some i =>
    by_cases hexp : isTokenExpired i.expiresAt env.now
    · cases htr : truthy i.refreshToken with
      | none =>
        simp [getValidTokenForInstallation, tokenOf, getValidToken, hexp, htr]
      | some rt =>
        cases hro : env.refreshOutcome rt with
        | none =>
          simp [getValidTokenForInstallation, tokenOf, getValidToken, hexp,
            htr, hro]
        | some r =>
          cases hti : i.teamId with
          | none =>
            simp [getValidTokenForInstallation, tokenOf, getValidToken, hexp,
              htr, hro, hti]
          | some tid =>
            simp [getValidTokenForInstallation, tokenOf, getValidToken, hexp,
              htr, hro, hti]
    · simp [getValidTokenForInstallation, tokenOf, getValidToken, hexp]

theorem getValidToken_store_frame (env : Env) (i : Installation)
    (store : Store) :
    (getValidToken env i store).store.destinations = store.destinations ∧
    (getValidToken env i store).store.userTokens = store.userTokens ∧
    (getValidToken env i store).store.tokenToUser = store.tokenToUser := by
  unfold getValidToken
  repeat' split
  all_goals exact ⟨rfl, rfl, rfl⟩

theorem getValidTokenForInstallation_store_frame (env : Env)
    (inst? : Option Installation) (store : Store) :
    (getValidTokenForInstallation env inst? store).store.destinations
        = store.destinations ∧
    (getValidTokenForInstallation env inst? store).store.userTokens
        = store.userTokens ∧
    (getValidTokenForInstallation env inst? store).store.tokenToUser
        = store.tokenToUser := by
  cases inst? with
  | none => exact ⟨rfl, rfl, rfl⟩
  | some i =>
    have h := getValidToken_store_frame env i store
    unfold getValidTokenForInstallation
    cases hr : (getValidToken env i store).result with
    | ok t => simpa [hr] using h
    | error e => simpa [hr] using h

theorem sendPhase_frame (env : Env) (store : Store) (client : Client)
    (ws : Option String) (user : String) (channel : String) :
    (sendPhase env store client ws user channel).client = client ∧
    (sendPhase env store client ws user channel).resolvedWorkspace = ws := by
  unfold sendPhase tokenExpiredOutcome postedOutcome internalErrorOutcome
  dsimp only
  repeat' split
  all_goals exact ⟨rfl, rfl⟩

theorem sendPhase_error_ne_not_configured (env : Env) (store : Store)
    (client : Client) (ws : Option String) (user : String) (channel : String) :
    (sendPhase env store client ws user channel).error ≠ some "not_configured" := by
  unfold sendPhase tokenExpiredOutcome postedOutcome internalErrorOutcome
  dsimp only
  repeat' split
  all_goals simp

theorem directResolve_web (env : Env) (store : Store) (ws : String)
    (inst : Installation) (t : String)
    (hinst : lookupInstallation env store ws = some inst)
    (ht : truthy (tokenOf env (some inst)) = some t) :
    directResolve env store ws =
      (.web t, (getValidTokenForInstallation env (some inst) store).store) := by
  unfold directResolve
  rw [hinst]
  dsimp only
  rw [getValidTokenForInstallation_token, ht]

theorem resolveCredential_direct (env : Env) (store : Store) (ws : String)
    (inst : Installation) (t : String) (channel : String)
    (hinst : lookupInstallation env store ws = some inst)
    (ht : truthy (tokenOf env (some inst)) = some t) :
    resolveCredential env store (some ws) channel =
      ⟨.web t, some ws,
        (getValidTokenForInstallation env (some inst) store).store,
        false, [], false⟩ := by
  unfold resolveCredential
  dsimp only
  rw [directResolve_web env store ws inst t hinst ht]
  simp

theorem resolveCredential_none (env : Env) (store : Store) (channel : String) :
    resolveCredential env store none channel =
      ⟨(probeLoop env channel store.installations
          ⟨.app, none, false, store, []⟩).client,
        (probeLoop env channel store.installations
          ⟨.app, none, false, store, []⟩).wsId,
        (probeLoop env channel store.installations
          ⟨.app, none, false, store, []⟩).store,
        true,
        (probeLoop env channel store.installations
          ⟨.app, none, false, store, []⟩).probed,
        (probeLoop env channel store.installations
          ⟨.app, none, false, store, []⟩).resolvedByProbe⟩ := by
  unfold resolveCredential
  simp

/-- Whether probing an installation fails: no usable token, or the
read-only channel-info check fails. -/
def probeFails (env : Env) (channel : String) (inst : Installation) : Bool :=
  match truthy (tokenOf env (some inst)) with
  | none => true
  | some t =>
    match env.convInfo (.web t) channel with
    | .ok _ => false
    | .error _ => true

/-- Teams whose installations get an actual channel-info probe (those with
a usable token), in stored order. -/
def probedTeams (env : Env) (l : List (String × Installation)) : List String :=
  (l.filter (fun p => (truthy (tokenOf env (some p.2))).isSome)).map Prod.fst

theorem probeLoop_all_fail (env : Env) (channel : String)
    (l : List (String × Installation)) (st : ProbeState)
    (h : ∀ p ∈ l, probeFails env channel p.2 = true) :
    ∃ s2, probeLoop env channel l st =
      { client := st.client, wsId := st.wsId,
        resolvedByProbe := st.resolvedByProbe, store := s2,
        probed := st.probed ++ probedTeams env l } := by
  induction l generalizing st with
  | nil => exact ⟨st.store, by simp [probeLoop, probedTeams]⟩
  | cons q rest ih =>
    have hq := h q (List.mem_cons_self q rest)
    cases htt : truthy (tokenOf env (some q.2)) with
    | none =>
      obtain ⟨s2, hs2⟩ :=
        ih { st with store := (getValidTokenForInstallation env (some q.2)
              st.store).store }
          (fun p hp => h p (List.mem_cons_of_mem _ hp))
      refine ⟨s2, ?_⟩
      simp only [probeLoop, getValidTokenForInstallation_token, htt,
        List.append_eq]
      rw [hs2]
      simp [probedTeams, List.filter_cons, htt]
    | some t =>
      cases hci : env.convInfo (.web t) channel with
      | ok info =>
        exfalso
        simp [probeFails, htt, hci] at hq
      | error e =>
        obtain ⟨s2, hs2⟩ :=
          ih { st with
                store := (getValidTokenForInstallation env (some q.2)
                  st.store).store
                probed := st.probed ++ [q.1] }
            (fun p hp => h p (List.mem_cons_of_mem _ hp))
        refine ⟨s2, ?_⟩
        simp only [probeLoop, getValidTokenForInstallation_token, htt, hci,
          List.append_eq]
        rw [hs2]
        simp [probedTeams, List.filter_cons, htt]

theorem probeLoop_first_success (env : Env) (channel : String)
    (pre : List (String × Installation)) (tid : String) (inst : Installation)
    (rest : List (String × Installation)) (t : String) (st : ProbeState)
    (hpre : ∀ p ∈ pre, probeFails env channel p.2 = true)
    (ht : truthy (tokenOf env (some inst)) = some t)
    (hsee : ∃ info, env.convInfo (.web t) channel = .ok info) :
    ∃ s2, probeLoop env channel (pre ++ (tid, inst) :: rest) st =
      { client := .web t, wsId := some tid, resolvedByProbe := true,
        store := s2, probed := st.probed ++ probedTeams env pre ++ [tid] } := by
  induction pre generalizing st with
  | nil =>
    obtain ⟨info, hinfo⟩ := hsee
    refine ⟨(getValidTokenForInstallation env (some inst) st.store).store, ?_⟩
    simp only [List.nil_append, probeLoop, getValidTokenForInstallation_token,
      ht, hinfo]
    simp [probedTeams]
  | cons q pre' ih =>
    have hq := hpre q (List.mem_cons_self q pre')
    cases htt : truthy (tokenOf env (some q.2)) with
    | none =>
      obtain ⟨s2, hs2⟩ :=
        ih { st with store := (getValidTokenForInstallation env (some q.2)
              st.store).store }
          (fun p hp => hpre p (List.mem_cons_of_mem _ hp))
      refine ⟨s2, ?_⟩
      simp only [List.cons_append, probeLoop,
        getValidTokenForInstallation_token, htt, List.append_eq]
      rw [hs2]
      simp [probedTeams, List.filter_cons, htt]
    | some tq =>
      cases hci : env.convInfo (.web tq) channel with
      | ok info =>
        exfalso
        simp [probeFails, htt, hci] at hq
      | error e =>
        obtain ⟨s2, hs2⟩ :=
          ih { st with
                store := (getValidTokenForInstallation env (some q.2)
                  st.store).store
                probed := st.probed ++ [q.1] }
            (fun p hp => hpre p (List.mem_cons_of_mem _ hp))
        refine ⟨s2, ?_⟩
        simp only [List.cons_append, probeLoop,
          getValidTokenForInstallation_token, htt, hci, List.append_eq]
        rw [hs2]
        simp [probedTeams, List.filter_cons, htt]

theorem handleWebhook_resolved (env : Env) (store : Store)
    (input : WebhookInput) (user : String) (dest : Dest) (channel : String)
    (htok : jsGetT store.tokenToUser input.token = some user)
    (hrisk : input.riskInsightPresent = true)
    (hdest : jsGet store.destinations user = some dest)
    (hch : truthy dest.channel = some channel) :
    handleWebhook env store input =
      { sendPhase env
          (resolveCredential env store (jsOr dest.workspaceId dest.team_id)
            channel).store
          (resolveCredential env store (jsOr dest.workspaceId dest.team_id)
            channel).client
          (resolveCredential env store (jsOr dest.workspaceId dest.team_id)
            channel).wsId user channel with
        probeEntered := (resolveCredential env store
          (jsOr dest.workspaceId dest.team_id) channel).probeEntered
        probed := (resolveCredential env store
          (jsOr dest.workspaceId dest.team_id) channel).probed
        resolvedByProbe := (resolveCredential env store
          (jsOr dest.workspaceId dest.team_id) channel).resolvedByProbe } := by
  unfold handleWebhook
  simp only [htok, hrisk, hdest, hch, Bool.not_true, Bool.false_eq_true,
    if_false]

/-- C2: for an inbound alert whose stored destination carries an explicit
workspace id that resolves to an installation with a usable credential, the
handler uses exactly that installation's credential (the WebClient built
from its valid token) and the probe loop over the other installations is
never entered. -/
theorem direct_workspace_resolution_no_probe (env : Env) (store : Store)
    (input : WebhookInput) (user ws t channel : String) (dest : Dest)
    (inst : Installation)
    (htok : jsGetT store.tokenToUser input.token = some user)
    (hrisk : input.riskInsightPresent = true)
    (hdest : jsGet store.destinations user = some dest)
    (hch : truthy dest.channel = some channel)
    (hws : jsOr dest.workspaceId dest.team_id = some ws)
    (hinst : lookupInstallation env store ws = some inst)
    (ht : truthy (tokenOf env (some inst)) = some t) :
    (handleWebhook env store input).probeEntered = false ∧
    (handleWebhook env store input).client = Client.web t := by
  rw [handleWebhook_resolved env store input user dest channel htok hrisk
    hdest hch]
  rw [hws, resolveCredential_direct env store ws inst t channel hinst ht]
  exact ⟨rfl,
    (sendPhase_frame env
      (getValidTokenForInstallation env (some inst) store).store
      (Client.web t) (some ws) user channel).1⟩

/-- Concrete installation for the C2 witness. -/
def instDirect : Installation :=
  { bot := some { token := some "xoxb-t1" }, teamId := some "T1" }

/-- Concrete oracle for the C2 witness. -/
def envDirect : Env :=
  { now := 0
    refreshOutcome := fun _ => none
    fetchInstallation := none
    convInfo := fun _ _ => .error "channel_not_found"
    authTest := fun _ => .ok { team_id := "T1" }
    postFirst := fun _ _ => .ok { channel := "C1", ts := "1.0" }
    joinChannel := fun _ _ => .error "method_not_allowed"
    postRetry := fun _ _ => .error "unused" }

/-- Concrete document for the C2 witness: a destination tagged with
workspace T1 and two installations. -/
def storeDirect : Store :=
  { destinations := [("U1", { channel := some "C1", workspaceId := some "T1" })]
    userTokens := [("U1", "tokA")]
    tokenToUser := [("tokA", "U1")]
    installations := [("T1", instDirect),
      ("T2", { bot := some { token := some "xoxb-t2" }, teamId := some "T2" })] }

/-- Witness for C2 at a concrete document and oracle. -/
theorem direct_workspace_resolution_no_probe_witness :
    (handleWebhook envDirect storeDirect ⟨"tokA", true⟩).probeEntered = false ∧
    (handleWebhook envDirect storeDirect ⟨"tokA", true⟩).client
      = Client.web "xoxb-t1" :=
  direct_workspace_resolution_no_probe envDirect storeDirect ⟨"tokA", true⟩
    "U1" "T1" "xoxb-t1" "C1"
    { channel := some "C1", workspaceId := some "T1" } instDirect
    (by decide) (by decide) (by decide) (by decide) (by decide) (by decide)
    (by decide)

/-- C3: for an inbound alert whose destination has no workspace id, the
handler iterates the stored installations in order and selects the first
whose credential can see the destination channel, short-circuiting there:
the probe stops at that installation, its workspace becomes the resolved
workspace, and its valid token is the credential used. -/
theorem probe_fallback_selects_first_visible (env : Env) (store : Store)
    (input : WebhookInput) (user tid t channel : String) (dest : Dest)
    (inst : Installation) (pre rest : List (String × Installation))
    (htok : jsGetT store.tokenToUser input.token = some user)
    (hrisk : input.riskInsightPresent = true)
    (hdest : jsGet store.destinations user = some dest)
    (hch : truthy dest.channel = some channel)
    (hws : jsOr dest.workspaceId dest.team_id = none)
    (hinstalls : store.installations = pre ++ (tid, inst) :: rest)
    (hpre : ∀ p ∈ pre, probeFails env channel p.2 = true)
    (ht : truthy (tokenOf env (some inst)) = some t)
    (hsee : ∃ info, env.convInfo (.web t) channel = .ok info) :
    (handleWebhook env store input).probeEntered = true ∧
    (handleWebhook env store input).resolvedByProbe = true ∧
    (handleWebhook env store input).resolvedWorkspace = some tid ∧
    (handleWebhook env store input).client = Client.web t ∧
    (handleWebhook env store input).probed = probedTeams env pre ++ [tid] := by
  rw [handleWebhook_resolved env store input user dest channel htok hrisk
    hdest hch]
  rw [hws, resolveCredential_none, hinstalls]
  obtain ⟨s2, hloop⟩ := probeLoop_first_success env channel pre tid inst rest
    t ⟨.app, none, false, store, []⟩ hpre ht hsee
  rw [hloop]
  refine ⟨rfl, rfl, ?_, ?_, ?_⟩
  · exact (sendPhase_frame env s2 (Client.web t) (some tid) user channel).2
  · exact (sendPhase_frame env s2 (Client.web t) (some tid) user channel).1
  · simp

def instW1 : Installation :=
  { bot := some { token := some "xoxb-w1" }, teamId := some "W1" }

def instW2 : Installation :=
  { bot := some { token := some "xoxb-w2" }, teamId := some "W2" }

def instW3 : Installation :=
  { bot := some { token := some "xoxb-w3" }, teamId := some "W3" }

/-- Oracle for the C3 witness: only the second installation's credential
can see the channel. -/
def envProbe : Env :=
  { now := 0
    refreshOutcome := fun _ => none
    fetchInstallation := none
    convInfo := fun c _ =>
      match c with
      | .web "xoxb-w2" => .ok { is_private := false }
      | _ => .error "channel_not_found"
    authTest := fun _ => .ok { team_id := "W2" }
    postFirst := fun _ _ => .ok { channel := "C9", ts := "2.0" }
    joinChannel := fun _ _ => .error "unused"
    postRetry := fun _ _ => .error "unused" }

/-- Document for the C3 witness: a legacy destination without workspace id
and three installations. -/
def storeProbe : Store :=
  { destinations := [("U2", { channel := some "C9" })]
    userTokens := [("U2", "tokB")]
    tokenToUser := [("tokB", "U2")]
    installations := [("W1", instW1), ("W2", instW2), ("W3", instW3)] }

/-- Witness for C3: with three installations where only the second's
credential can see the channel, resolution selects the second. -/
theorem probe_fallback_selects_first_visible_witness :
    (handleWebhook envProbe storeProbe ⟨"tokB", true⟩).resolvedWorkspace
        = some "W2" ∧
    (handleWebhook envProbe storeProbe ⟨"tokB", true⟩).client
        = Client.web "xoxb-w2" ∧
    (handleWebhook envProbe storeProbe ⟨"tokB", true⟩).probed
        = ["W1", "W2"] := by
  have h := probe_fallback_selects_first_visible envProbe storeProbe
    ⟨"tokB", true⟩ "U2" "W2" "xoxb-w2" "C9" { channel := some "C9" } instW2
    [("W1", instW1)] [("W3", instW3)]
    (by decide) (by decide) (by decide) (by decide) (by decide) (by decide)
    (by decide) (by decide) ⟨{ is_private := false }, rfl⟩
  exact ⟨h.2.2.1, h.2.2.2.1, by rw [h.2.2.2.2]; decide⟩

/-- C4 (amended): when the destination has no workspace id and probing
every stored installation finds none whose credential can see the channel,
the handler does not fail with a not_configured resolution failure — no
such error exists in the code; instead it proceeds into validation and send
with the process-wide app-default client. -/
theorem no_probe_match_keeps_default_client (env : Env) (store : Store)
    (input : WebhookInput) (user channel : String) (dest : Dest)
    (htok : jsGetT store.tokenToUser input.token = some user)
    (hrisk : input.riskInsightPresent = true)
    (hdest : jsGet store.destinations user = some dest)
    (hch : truthy dest.channel = some channel)
    (hws : jsOr dest.workspaceId dest.team_id = none)
    (hall : ∀ p ∈ store.installations, probeFails env channel p.2 = true) :
    (handleWebhook env store input).client = Client.app ∧
    (handleWebhook env store input).resolvedByProbe = false ∧
    (handleWebhook env store input).error ≠ some "not_configured" := by
  rw [handleWebhook_resolved env store input user dest channel htok hrisk
    hdest hch]
  rw [hws, resolveCredential_none]
  obtain ⟨s2, hloop⟩ := probeLoop_all_fail env channel store.installations
    ⟨.app, none, false, store, []⟩ hall
  rw [hloop]
  refine ⟨?_, rfl, ?_⟩
  · exact (sendPhase_frame env s2 Client.app none user channel).1
  · exact sendPhase_error_ne_not_configured env s2 Client.app none user
      channel

/-- Oracle for the C4 counterexample: no installation's credential can see
the channel, while the app-default client can post. -/
def envDefault : Env :=
  { now := 0
    refreshOutcome := fun _ => none
    fetchInstallation := none
    convInfo := fun _ _ => .error "channel_not_found"
    authTest := fun _ => .ok { team_id := "T0" }
    postFirst := fun _ _ => .ok { channel := "C5", ts := "3.0" }
    joinChannel := fun _ _ => .error "unused"
    postRetry := fun _ _ => .error "unused" }

/-- Document for the C4 counterexample. -/
def storeDefault : Store :=
  { destinations := [("U5", { channel := some "C5" })]
    userTokens := [("U5", "tokC")]
    tokenToUser := [("tokC", "U5")]
    installations := [("T1",
      { bot := some { token := some "xoxb-z1" }, teamId := some "T1" })] }

/-- C4, counterexample: destination without workspace id, probing finds no
matching installation — yet the delivery does not fail with
not_configured; the handler proceeds with the process-wide default bot
client and returns 200. -/
theorem no_probe_match_proceeds_with_default :
    (handleWebhook envDefault storeDefault ⟨"tokC", true⟩).status = 200 ∧
    (handleWebhook envDefault storeDefault ⟨"tokC", true⟩).client
        = Client.app ∧
    (handleWebhook envDefault storeDefault ⟨"tokC", true⟩).error = none := by
  decide

/-- Witness for the amended C4 theorem at the concrete input. -/
theorem no_probe_match_keeps_default_client_witness :
    (handleWebhook envDefault storeDefault ⟨"tokC", true⟩).client
        = Client.app ∧
    (handleWebhook envDefault storeDefault ⟨"tokC", true⟩).error
        ≠ some "not_configured" := by
  have h := no_probe_match_keeps_default_client envDefault storeDefault
    ⟨"tokC", true⟩ "U5" "C5" { channel := some "C5" }
    (by decide) (by decide) (by decide) (by decide) (by decide) (by decide)
  exact ⟨h.1, h.2.2⟩

theorem tokenExpiredOutcome_spec (store : Store) (client : Client)
    (user : String) (ws : String) (j : Bool) :
    (tokenExpiredOutcome store client user (some ws) j).status = 401 ∧
    (tokenExpiredOutcome store client user (some ws) j).error
        = some "token_expired" ∧
    (tokenExpiredOutcome store client user (some ws) j).reinstallUrl
        = true ∧
    jsGet (tokenExpiredOutcome store client user (some ws) j).store.installations
        ws = none := by
  unfold tokenExpiredOutcome
  dsimp only
  by_cases h : (jsGet store.installations ws).isSome
  · rw [if_pos h]
    exact ⟨rfl, rfl, rfl, jsGet_jsDel_self _ _⟩
  · rw [if_neg h]
    refine ⟨rfl, rfl, rfl, ?_⟩
    cases hm : jsGet store.installations ws with
    | none => rfl
    | some i => rw [hm] at h; simp at h

theorem sendPhase_validation_expired (env : Env) (store : Store)
    (client : Client) (ws : Option String) (user : String) (channel : String)
    (h : env.authTest client = .error "token_expired") :
    sendPhase env store client ws user channel =
      tokenExpiredOutcome store client user ws false := by
  unfold sendPhase
  simp only [h]
  simp

theorem sendPhase_post_expired (env : Env) (store : Store) (client : Client)
    (ws : Option String) (user : String) (channel : String) (a : AuthInfo)
    (hauth : env.authTest client = .ok a)
    (hpost : env.postFirst client channel = .error "token_expired") :
    sendPhase env store client ws user channel =
      tokenExpiredOutcome store client user ws false := by
  unfold sendPhase
  simp only [hauth, hpost]
  simp

theorem sendPhase_private_channel (env : Env) (store : Store)
    (client : Client) (ws : Option String) (user : String) (channel : String)
    (a : AuthInfo)
    (hauth : env.authTest client = .ok a)
    (hpost : env.postFirst client channel = .error "channel_not_found")
    (hinfo : env.convInfo client channel = .ok { is_private := true }) :
    sendPhase env store client ws user channel =
      { status := 404, error := some "private_channel", user := some user,
        store := store, client := client, resolvedWorkspace := ws } := by
  unfold sendPhase
  simp only [hauth, hpost, hinfo]
  simp

/-- C7: when the credential resolved for a workspace-tagged destination is
classified as expired — whether at the pre-send auth.test liveness check or
at send time — and no successful refresh rescued it, the handler deletes
that workspace's installation record from the store and answers 401 with
error token_expired and a reinstall_url. -/
theorem expired_credential_purged_and_401 (env : Env) (store : Store)
    (input : WebhookInput) (user ws t channel : String) (dest : Dest)
    (inst : Installation)
    (htok : jsGetT store.tokenToUser input.token = some user)
    (hrisk : input.riskInsightPresent = true)
    (hdest : jsGet store.destinations user = some dest)
    (hch : truthy dest.channel = some channel)
    (hws : jsOr dest.workspaceId dest.team_id = some ws)
    (hinst : lookupInstallation env store ws = some inst)
    (ht : truthy (tokenOf env (some inst)) = some t)
    (hdetect : env.authTest (Client.web t) = .error "token_expired" ∨
      ((∃ a, env.authTest (Client.web t) = .ok a) ∧
        env.postFirst (Client.web t) channel = .error "token_expired")) :
    (handleWebhook env store input).status = 401 ∧
    (handleWebhook env store input).error = some "token_expired" ∧
    (handleWebhook env store input).reinstallUrl = true ∧
    jsGet (handleWebhook env store input).store.installations ws = none := by
  rw [handleWebhook_resolved env store input user dest channel htok hrisk
    hdest hch]
  rw [hws, resolveCredential_direct env store ws inst t channel hinst ht]
  dsimp only
  have hsp : sendPhase env
      (getValidTokenForInstallation env (some inst) store).store
      (Client.web t) (some ws) user channel =
      tokenExpiredOutcome
        (getValidTokenForInstallation env (some inst) store).store
        (Client.web t) user (some ws) false := by
    rcases hdetect with hval | ⟨⟨a, hauth⟩, hpost⟩
    · exact sendPhase_validation_expired _ _ _ _ _ _ hval
    · exact sendPhase_post_expired _ _ _ _ _ _ a hauth hpost
  rw [hsp]
  have hspec := tokenExpiredOutcome_spec
    (getValidTokenForInstallation env (some inst) store).store
    (Client.web t) user ws false
  exact ⟨hspec.1, hspec.2.1, hspec.2.2.1, hspec.2.2.2⟩

def instExp : Installation :=
  { bot := some { token := some "xoxb-old" }, teamId := some "T7" }

/-- Oracle for the C7 witness: auth.test classifies the installation's
credential as expired. -/
def envExp : Env :=
  { now := 0
    refreshOutcome := fun _ => none
    fetchInstallation := none
    convInfo := fun _ _ => .error "channel_not_found"
    authTest := fun c =>
      match c with
      | .web "xoxb-old" => .error "token_expired"
      | _ => .ok { team_id := "T0" }
    postFirst := fun _ _ => .ok { channel := "C7", ts := "4.0" }
    joinChannel := fun _ _ => .error "unused"
    postRetry := fun _ _ => .error "unused" }

/-- Document for the C7 witness. -/
def storeExp : Store :=
  { destinations := [("U7", { channel := some "C7", workspaceId := some "T7" })]
    userTokens := [("U7", "tokD")]
    tokenToUser := [("tokD", "U7")]
    installations := [("T7", instExp)] }

/-- Witness for C7: the expired installation is purged and the response is
401 token_expired with a reinstall_url. -/
theorem expired_credential_purged_and_401_witness :
    (handleWebhook envExp storeExp ⟨"tokD", true⟩).status = 401 ∧
    (handleWebhook envExp storeExp ⟨"tokD", true⟩).error
        = some "token_expired" ∧
    (handleWebhook envExp storeExp ⟨"tokD", true⟩).reinstallUrl = true ∧
    jsGet (handleWebhook envExp storeExp ⟨"tokD", true⟩).store.installations
        "T7" = none :=
  expired_credential_purged_and_401 envExp storeExp ⟨"tokD", true⟩ "U7" "T7"
    "xoxb-old" "C7" { channel := some "C7", workspaceId := some "T7" } instExp
    (by decide) (by decide) (by decide) (by decide) (by decide) (by decide)
    (by decide) (Or.inl rfl)

/-- C8: an inbound alert for a configured user whose destination channel is
private and whose resolved bot credential is not a member (the post fails
with channel_not_found and channel info reports a private channel) answers
404 private_channel, attempts no channel join, and leaves the stored
destinations untouched. -/
theorem private_channel_404_no_join (env : Env) (store : Store)
    (input : WebhookInput) (user ws t channel : String) (dest : Dest)
    (inst : Installation) (a : AuthInfo)
    (htok : jsGetT store.tokenToUser input.token = some user)
    (hrisk : input.riskInsightPresent = true)
    (hdest : jsGet store.destinations user = some dest)
    (hch : truthy dest.channel = some channel)
    (hws : jsOr dest.workspaceId dest.team_id = some ws)
    (hinst : lookupInstallation env store ws = some inst)
    (ht : truthy (tokenOf env (some inst)) = some t)
    (hauth : env.authTest (Client.web t) = .ok a)
    (hpost : env.postFirst (Client.web t) channel = .error "channel_not_found")
    (hinfo : env.convInfo (Client.web t) channel
        = .ok { is_private := true }) :
    (handleWebhook env store input).status = 404 ∧
    (handleWebhook env store input).error = some "private_channel" ∧
    (handleWebhook env store input).joinAttempted = false ∧
    (handleWebhook env store input).user = some user ∧
    (handleWebhook env store input).store.destinations
        = store.destinations := by
  rw [handleWebhook_resolved env store input user dest channel htok hrisk
    hdest hch]
  rw [hws, resolveCredential_direct env store ws inst t channel hinst ht]
  dsimp only
  rw [sendPhase_private_channel env
    (getValidTokenForInstallation env (some inst) store).store
    (Client.web t) (some ws) user channel a hauth hpost hinfo]
  refine ⟨rfl, rfl, rfl, rfl, ?_⟩
  exact (getValidTokenForInstallation_store_frame env (some inst) store).1

def instPriv : Installation :=
  { bot := some { token := some "xoxb-p" }, teamId := some "T8" }

/-- Oracle for the C8 witness: posting fails with channel_not_found and the
channel metadata reveals a private channel. -/
def envPriv : Env :=
  { now := 0
    refreshOutcome := fun _ => none
    fetchInstallation := none
    convInfo := fun _ _ => .ok { is_private := true }
    authTest := fun _ => .ok { team_id := "T8" }
    postFirst := fun _ _ => .error "channel_not_found"
    joinChannel := fun _ _ => .error "unused"
    postRetry := fun _ _ => .error "unused" }

/-- Document for the C8 witness. -/
def storePriv : Store :=
  { destinations := [("U8", { channel := some "C8", workspaceId := some "T8" })]
    userTokens := [("U8", "tokE")]
    tokenToUser := [("tokE", "U8")]
    installations := [("T8", instPriv)] }

/-- Witness for C8 at a concrete document and oracle. -/
theorem private_channel_404_no_join_witness :
    (handleWebhook envPriv storePriv ⟨"tokE", true⟩).status = 404 ∧
    (handleWebhook envPriv storePriv ⟨"tokE", true⟩).error
        = some "private_channel" ∧
    (handleWebhook envPriv storePriv ⟨"tokE", true⟩).joinAttempted = false ∧
    (handleWebhook envPriv storePriv ⟨"tokE", true⟩).user = some "U8" ∧
    (handleWebhook envPriv storePriv ⟨"tokE", true⟩).store.destinations
        = storePriv.destinations :=
  private_channel_404_no_join envPriv storePriv ⟨"tokE", true⟩ "U8" "T8"
    "xoxb-p" "C8" { channel := some "C8", workspaceId := some "T8" } instPriv
    { team_id := "T8" }
    (by decide) (by decide) (by decide) (by decide) (by decide) (by decide)
    (by decide) rfl rfl rfl

end SlackBot
